import Mathlib

/-!
Shallow embedding of the HKO_HUB "crystalline" kernel
(`src/CHOPSHOP/legacy_repos/HKO_HUB/HKO_HUB.js`): the Atom layer
(`Atom_Event`, `Atom_State`, `Atom_Lifecycle`, `Atom_Guard`), the Molecule
layer (`Mol_Store`, `Mol_Module`, `Mol_Pipeline`) and the Core registry
sweeps (`init` / `stop` loops of `HKO_HUB_Core`).

Modelling conventions:
* JavaScript exceptions are modelled with `Except String`; a thrown
  `Error(msg)` becomes `.error msg` (the `message` field is the string).
* Stateful closures become explicit state records threaded through the
  operations; an operation that can throw returns the pair
  `(Except String result, state-after)`, with the state unchanged when the
  JS code would have thrown before mutating.
* Event-bus handlers are defunctionalised: the `Handler` inductive covers
  the closure shapes the source constructs (a plain observer appending to a
  trace; an observer that calls the unsubscribe closure returned by `on`
  on itself during its own invocation; the wrapper pushed by `once`).
-/

namespace HKO

/-- Defunctionalised subscriber of an `Atom_Event` bus.
* `plain t` — an observer `f` that only records `(t, payload)` to the trace.
* `plainUnsubSelf t` — an observer that records `(t, payload)` and then calls
  the unsubscribe closure `() => ls.splice(ls.indexOf(f), 1)` that `on(f)`
  returned for itself.
* `onceWrap t` — the wrapper `(d) => (f(d), off())` pushed by `once(f)`,
  whose inner `f` records `(t, payload)` and whose `off` is `() => ls.pop()`. -/
inductive Handler where
  | plain (tag : Nat)
  | plainUnsubSelf (tag : Nat)
  | onceWrap (tag : Nat)
deriving DecidableEq, Repr

/-- State of one `Atom_Event` bus: the live listener array `ls`, plus the
observation trace `(tag, payload)` entries appended by handler invocations
(chronological order). -/
structure EventState (α : Type) where
  listeners : List Handler
  trace : List (Nat × α)
deriving DecidableEq, Repr

namespace Handler

/-- A handler that does not mutate the listener array when invoked. -/
def isPlain : Handler → Bool
  | .plain _ => true
  | _ => false

/-- The trace tag a handler records when invoked. -/
def tag : Handler → Nat
  | .plain t => t
  | .plainUnsubSelf t => t
  | .onceWrap t => t

end Handler

/-- `ls.indexOf(h)` followed by `splice(idx, 1)`: remove the first occurrence
of `h`. Returns `none` when `h` is absent (JS `indexOf` gives `-1`). -/
def removeFirst (h : Handler) : List Handler → Option (List Handler)
  | [] => none
  | x :: xs => if x = h then some xs else (removeFirst h xs).map (x :: ·)

/-- The unsubscribe closure returned by `Atom_Event.on(h)`:
`() => ls.splice(ls.indexOf(h), 1)`. When `h` is absent, `indexOf` yields
`-1` and `splice(-1, 1)` removes the last element. -/
def unsubscribeOn (h : Handler) (l : List Handler) : List Handler :=
  match removeFirst h l with
  | some l' => l'
  | none => l.dropLast

/-- One handler invocation `f(d)` with its side effects on the bus state. -/
def runHandler (h : Handler) (d : α) (st : EventState α) : EventState α :=
  match h with
  | .plain t => { st with trace := st.trace ++ [(t, d)] }
  | .plainUnsubSelf t =>
      { listeners := unsubscribeOn (.plainUnsubSelf t) st.listeners,
        trace := st.trace ++ [(t, d)] }
  | .onceWrap t =>
      { listeners := st.listeners.dropLast,
        trace := st.trace ++ [(t, d)] }

/-- `ls.forEach(f => f(d))` — ECMAScript `forEach`: the length is read once
at the start; at each index `k` below that length the *current* element at
`k` is invoked if the array still reaches past `k` (a dense array shrunk
below `k` has no property `k`, so the visit is skipped). -/
def emitLoop (d : α) : Nat → Nat → EventState α → EventState α
  | 0, _, st => st
  | n + 1, k, st =>
      if h : k < st.listeners.length then
        emitLoop d n (k + 1) (runHandler (st.listeners.get ⟨k, h⟩) d st)
      else
        emitLoop d n (k + 1) st

/-- `Atom_Event.emit(d)`: iterate the live listener array. -/
def emit (d : α) (st : EventState α) : EventState α :=
  emitLoop d st.listeners.length 0 st

/-- `Atom_Event.on(f)`: push the handler (its unsubscribe closure is
modelled by `unsubscribeOn`). Named `onSub` because `on` is a reserved
token in this Lean environment. -/
def onSub (h : Handler) (st : EventState α) : EventState α :=
  { st with listeners := st.listeners ++ [h] }

/-- `Atom_Event.once(f)`: push the auto-removing wrapper; the returned
`off` closure is `() => ls.pop()`. -/
def once (t : Nat) (st : EventState α) : EventState α :=
  { st with listeners := st.listeners ++ [.onceWrap t] }

/-- `Atom_Event.clear()`: `ls.length = 0`. -/
def clear (st : EventState α) : EventState α :=
  { st with listeners := [] }

/-! ## Guard and Store -/

/-- A JavaScript value, as far as the kernel's validators inspect one. -/
inductive JSVal where
  | undefined
  | null
  | str (s : String)
  | num (n : Int)
  | bool (b : Bool)
deriving DecidableEq, Repr

/-- A JavaScript object payload: an association of field names to values. -/
abbrev JSObj : Type := List (String × JSVal)

/-- Property read `data[k]`: a missing field reads as `undefined`. -/
def getField (data : JSObj) (k : String) : JSVal :=
  (data.lookup k).getD .undefined

/-- `typeof v` (the tags the kernel's `type` predicate can ever compare). -/
def typeOf : JSVal → String
  | .undefined => "undefined"
  | .null => "object"
  | .str _ => "string"
  | .num _ => "number"
  | .bool _ => "boolean"

/-- `Atom_Guard.required`: `(v) => v != null && v !== ''` — the loose
`!= null` also rejects `undefined`. -/
def Atom_Guard_required (v : JSVal) : Bool :=
  !(v = JSVal.null || v = JSVal.undefined || v = JSVal.str "")

/-- `Atom_Guard.type(t)`: `(v) => typeof v === t`. -/
def Atom_Guard_type (t : String) (v : JSVal) : Bool :=
  typeOf v = t

/-- A rule set: field name to predicate, in declaration order (the order of
`Object.entries(rules)` for string keys is insertion order). -/
abbrev Rules : Type := List (String × (JSVal → Bool))

/-- The loop body of `Atom_Guard.validate(rules)(data)`: return the first
field whose rule rejects `data[k]` (`{ok:false, field:k}`), or `none`
(`{ok:true, data}`). -/
def validateGo (data : JSObj) : Rules → Option String
  | [] => none
  | (k, r) :: rest => if r (getField data k) then validateGo data rest else some k

/-- State of a `Mol_Store`: the `Atom_State` cell (with its construction-time
initial value, used by `reset`) and the `changed` event bus. -/
structure StoreState where
  initial : JSObj
  value : JSObj
  changed : EventState JSObj
deriving DecidableEq

/-- `Mol_Store.get` (`state.read`). -/
def Mol_Store_get (st : StoreState) : JSObj :=
  st.value

/-- `Mol_Store.set(v)` for a store constructed with rule set `schema`:
when the schema is non-empty a validator is installed; a failing validation
throws ``Error(`Invalid: ${r.field}`)`` before any mutation; otherwise the
cell is written, `v` is emitted on `changed`, and `v` is returned.
Result: `(thrown-or-returned value, store state after the call)`. -/
def Mol_Store_set (schema : Rules) (v : JSObj) (st : StoreState) :
    Except String JSObj × StoreState :=
  if schema.length ≠ 0 then
    match validateGo v schema with
    | some k => (.error ("Invalid: " ++ k), st)
    | none => (.ok v, { st with value := v, changed := emit v st.changed })
  else
    (.ok v, { st with value := v, changed := emit v st.changed })

/-! ## Lifecycle and Module -/

instance {ε α : Type} [DecidableEq ε] [DecidableEq α] : DecidableEq (Except ε α) :=
  fun x y =>
    match x, y with
    | .ok a, .ok b =>
        if h : a = b then isTrue (by rw [h]) else isFalse (fun hc => by cases hc; exact h rfl)
    | .error a, .error b =>
        if h : a = b then isTrue (by rw [h]) else isFalse (fun hc => by cases hc; exact h rfl)
    | .ok _, .error _ => isFalse (fun hc => by cases hc)
    | .error _, .ok _ => isFalse (fun hc => by cases hc)

/-- `Atom_Lifecycle`'s hook table `{init: [], start: [], stop: [], destroy: []}`.
A hook is a zero-argument callback; the claims only observe whether it
returns or throws, so it is embedded as its `Except` outcome. -/
structure Lifecycle where
  init : List (Except String Unit)
  start : List (Except String Unit)
  stop : List (Except String Unit)
  destroy : List (Except String Unit)
deriving DecidableEq

/-- `Atom_Lifecycle.run(phase)`: `h[phase]?.forEach(f => f())` — hooks run in
registration order and the first exception propagates, skipping the rest. -/
def runHooks : List (Except String Unit) → Except String Unit
  | [] => .ok ()
  | .error e :: _ => .error e
  | .ok _ :: rest => runHooks rest

/-- The status cell payload `{status, err}` of a `Mol_Module`. -/
structure ModuleStatus where
  status : String
  err : Option String
deriving DecidableEq, Repr

/-- State of a `Mol_Module`: hook table `lc`, status `Atom_State` cell
(constructed as `{status: 'idle', err: null}`), and phase event bus `evt`. -/
structure ModuleState where
  lc : Lifecycle
  state : ModuleStatus
  evt : EventState String
deriving DecidableEq

/-- A fresh `Mol_Module(name, cfg)`'s mutable state, given its hook table. -/
def Mol_Module_new (lc : Lifecycle) : ModuleState :=
  { lc := lc, state := { status := "idle", err := none }, evt := ⟨[], []⟩ }

/-- `Mol_Module.init()`: `lc.run('init'); state.write({status:'init', err:null});
evt.emit('init')` — a hook exception propagates before the write and emit. -/
def Mol_Module_init (st : ModuleState) : Except String Unit × ModuleState :=
  match runHooks st.lc.init with
  | .error e => (.error e, st)
  | .ok _ =>
      (.ok (), { st with state := { status := "init", err := none },
                         evt := emit "init" st.evt })

/-- `Mol_Module.start()`: hooks, then `state.write({status:'run', err:null})`,
then `evt.emit('start')`. -/
def Mol_Module_start (st : ModuleState) : Except String Unit × ModuleState :=
  match runHooks st.lc.start with
  | .error e => (.error e, st)
  | .ok _ =>
      (.ok (), { st with state := { status := "run", err := none },
                         evt := emit "start" st.evt })

/-- `Mol_Module.stop()`: hooks, then `state.write({status:'stop', err:null})`,
then `evt.emit('stop')`. -/
def Mol_Module_stop (st : ModuleState) : Except String Unit × ModuleState :=
  match runHooks st.lc.stop with
  | .error e => (.error e, st)
  | .ok _ =>
      (.ok (), { st with state := { status := "stop", err := none },
                         evt := emit "stop" st.evt })

/-- `Mol_Module.status()`: `state.read()`. -/
def Mol_Module_status (st : ModuleState) : ModuleStatus :=
  st.state

/-! ## Pipeline -/

/-- Per-stage progress report emitted on a `Mol_Pipeline`'s bus. -/
inductive StageStatus where
  | running
  | ok
  | fail (err : String)
deriving DecidableEq, Repr

/-- The payload `{stage: i, status, err?}` of a pipeline progress event. -/
structure StageEvent where
  stage : Nat
  status : StageStatus
deriving DecidableEq, Repr

/-- The `for` loop of `Mol_Pipeline.run`: for stage `i` emit
`{stage:i, status:'run'}`, await the stage, then emit `{stage:i, status:'ok'}`
and continue, or on a throw emit `{stage:i, status:'fail', err:e.message}` and
rethrow. A stage is embedded as `α → Except String α`. The returned list is
the sequence of payloads emitted on the pipeline's `evt` bus. -/
def Mol_Pipeline_runGo : List (α → Except String α) → Nat → α → List StageEvent →
    Except String α × List StageEvent
  | [], _, curr, evs => (.ok curr, evs)
  | s :: rest, i, curr, evs =>
      let evs1 := evs ++ [⟨i, .running⟩]
      match s curr with
      | .ok next => Mol_Pipeline_runGo rest (i + 1) next (evs1 ++ [⟨i, .ok⟩])
      | .error e => (.error e, evs1 ++ [⟨i, .fail e⟩])

/-- `Mol_Pipeline(...stages).run(input)`. -/
def Mol_Pipeline_run (stages : List (α → Except String α)) (input : α) :
    Except String α × List StageEvent :=
  Mol_Pipeline_runGo stages 0 input []

/-! ## Core registry sweeps -/

/-- A registered module as the Core's `init`/`stop` loops observe it: its
registry name and the outcome of awaiting its `init()` / `stop()` method.
(The concrete `HKO_HUB_Core` registers logger, config, state, window, ipc;
the sweeps below are its loops over an arbitrary ordered registry.) -/
structure CoreModule where
  name : String
  initRes : Except String Unit
  stopRes : Except String Unit
deriving DecidableEq, Repr

/-- The loop of `HKO_HUB_Core.init`:
`for (const [n, m] of modules) { await m.init(); logger.info(...) }` — each
invocation is recorded as `"<name>.init"` on the shared ordering trace; an
exception propagates at once, ending the sweep. -/
def coreInitGo : List CoreModule → List String → Except String Unit × List String
  | [], tr => (.ok (), tr)
  | m :: rest, tr =>
      let tr1 := tr ++ [m.name ++ ".init"]
      match m.initRes with
      | .error e => (.error e, tr1)
      | .ok _ => coreInitGo rest tr1

/-- `HKO_HUB_Core.init()` over the ordered registry. -/
def Core_init (mods : List CoreModule) : Except String Unit × List String :=
  coreInitGo mods []

/-- The loop of `HKO_HUB_Core.stop`:
`for (const [n, m] of [...modules].reverse()) { await m.stop(); ... }` — same
shape as `init` but over the reversed registry; there is no `try`/`catch`,
so an exception propagates at once, ending the sweep. -/
def coreStopGo : List CoreModule → List String → Except String Unit × List String
  | [], tr => (.ok (), tr)
  | m :: rest, tr =>
      let tr1 := tr ++ [m.name ++ ".stop"]
      match m.stopRes with
      | .error e => (.error e, tr1)
      | .ok _ => coreStopGo rest tr1

/-- `HKO_HUB_Core.stop()` over the ordered registry. -/
def Core_stop (mods : List CoreModule) : Except String Unit × List String :=
  coreStopGo mods.reverse []

/-! ## Helper lemmas -/

theorem runHandler_of_isPlain {α : Type} (d : α) (h : Handler) (L : List Handler)
    (tr : List (Nat × α)) (hp : h.isPlain = true) :
    runHandler h d ⟨L, tr⟩ = ⟨L, tr ++ [(h.tag, d)]⟩ := by
  cases h with
  | plain t => rfl
  | plainUnsubSelf t => simp [Handler.isPlain] at hp
  | onceWrap t => simp [Handler.isPlain] at hp

theorem emitLoop_plain {α : Type} (d : α) (n : Nat) :
    ∀ (k : Nat) (L : List Handler) (tr : List (Nat × α)),
      (∀ h ∈ L, h.isPlain = true) → L.length ≤ k + n →
      emitLoop d n k ⟨L, tr⟩ = ⟨L, tr ++ (L.drop k).map (fun h => (h.tag, d))⟩ := by
  induction n with
  | zero =>
      intro k L tr _ hle
      have hd : L.drop k = [] := List.drop_eq_nil_of_le (by omega)
      simp [emitLoop, hd]
  | succ n ih =>
      intro k L tr hp hle
      rw [emitLoop]
      by_cases hk : k < L.length
      · rw [dif_pos hk, runHandler_of_isPlain d _ _ _ (hp _ (List.get_mem L k hk)),
          ih (k + 1) L (tr ++ [((L.get ⟨k, hk⟩).tag, d)]) hp (by omega)]
        congr 1
        rw [List.drop_eq_getElem_cons hk, List.map_cons, List.append_assoc]
        simp
      · rw [dif_neg hk, ih (k + 1) L tr hp (by omega)]
        have h1 : L.drop k = [] := List.drop_eq_nil_of_le (by omega)
        have h2 : L.drop (k + 1) = [] := List.drop_eq_nil_of_le (by omega)
        rw [h1, h2]

/-- When no subscriber mutates the listener array, `emit` behaves exactly as
the snapshot semantics: every subscriber is invoked exactly once, in
subscription order, and the subscriber list is unchanged. -/
theorem emit_plain {α : Type} (d : α) (L : List Handler) (tr : List (Nat × α))
    (hp : ∀ h ∈ L, h.isPlain = true) :
    emit d ⟨L, tr⟩ = ⟨L, tr ++ L.map (fun h => (h.tag, d))⟩ := by
  rw [emit]
  simpa using emitLoop_plain d L.length 0 L tr hp (by omega)

/-- The validator accepts exactly when every rule accepts its field. -/
theorem validateGo_eq_none_iff (v : JSObj) (rules : Rules) :
    validateGo v rules = none ↔ ∀ p ∈ rules, p.2 (getField v p.1) = true := by
  induction rules with
  | nil => simp [validateGo]
  | cons p rest ih =>
      obtain ⟨k, r⟩ := p
      by_cases hr : r (getField v k) = true
      · simp [validateGo, hr, ih]
      · simp [validateGo, hr]

/-- A rejected field is the first rule-declaration-order field whose rule
rejects the payload: every earlier rule accepted. -/
theorem validateGo_eq_some (v : JSObj) (rules : Rules) (k : String)
    (hs : validateGo v rules = some k) :
    ∃ pre r post, rules = pre ++ (k, r) :: post
      ∧ (∀ p ∈ pre, p.2 (getField v p.1) = true)
      ∧ r (getField v k) = false := by
  induction rules with
  | nil => simp [validateGo] at hs
  | cons p rest ih =>
      obtain ⟨k', r'⟩ := p
      by_cases hr : r' (getField v k') = true
      · rw [validateGo, if_pos hr] at hs
        obtain ⟨pre, r, post, hsplit, hpre, hfail⟩ := ih hs
        refine ⟨(k', r') :: pre, r, post, by rw [hsplit]; rfl, ?_, hfail⟩
        intro p hp
        rcases List.mem_cons.mp hp with h | h
        · rw [h]; exact hr
        · exact hpre p h
      · rw [validateGo, if_neg hr] at hs
        cases hs
        exact ⟨[], r', rest, rfl, by simp, by simpa using hr⟩

/-- A fail-free `init` sweep visits every module, in registration order. -/
theorem coreInitGo_ok (mods : List CoreModule) :
    ∀ tr : List String, (∀ x ∈ mods, x.initRes = .ok ()) →
      coreInitGo mods tr = (.ok (), tr ++ mods.map (fun x => x.name ++ ".init")) := by
  induction mods with
  | nil => intro tr _; simp [coreInitGo]
  | cons m rest ih =>
      intro tr hok
      rw [coreInitGo]
      rw [hok m (List.mem_cons_self m rest)]
      rw [ih (tr ++ [m.name ++ ".init"]) (fun x hx => hok x (List.mem_cons_of_mem m hx))]
      simp

/-- An `init` sweep whose prefix succeeds and whose next module throws stops
right there: the trace ends at the throwing module and the exception is the
module's own, unwrapped. -/
theorem coreInitGo_fail (pre : List CoreModule) (m : CoreModule) (post : List CoreModule)
    (e : String) (hm : m.initRes = .error e) :
    ∀ tr : List String, (∀ x ∈ pre, x.initRes = .ok ()) →
      coreInitGo (pre ++ m :: post) tr =
        (.error e, tr ++ pre.map (fun x => x.name ++ ".init") ++ [m.name ++ ".init"]) := by
  induction pre with
  | nil =>
      intro tr _
      rw [List.nil_append, coreInitGo, hm]
      simp
  | cons p rest ih =>
      intro tr hok
      rw [List.cons_append, coreInitGo]
      rw [hok p (List.mem_cons_self p rest)]
      rw [ih (tr ++ [p.name ++ ".init"]) (fun x hx => hok x (List.mem_cons_of_mem p hx))]
      simp

/-- A fail-free `stop` loop visits every listed module in list order (the
caller passes the reversed registry). -/
theorem coreStopGo_ok (mods : List CoreModule) :
    ∀ tr : List String, (∀ x ∈ mods, x.stopRes = .ok ()) →
      coreStopGo mods tr = (.ok (), tr ++ mods.map (fun x => x.name ++ ".stop")) := by
  induction mods with
  | nil => intro tr _; simp [coreStopGo]
  | cons m rest ih =>
      intro tr hok
      rw [coreStopGo]
      rw [hok m (List.mem_cons_self m rest)]
      rw [ih (tr ++ [m.name ++ ".stop"]) (fun x hx => hok x (List.mem_cons_of_mem m hx))]
      simp

/-- A `stop` loop whose prefix succeeds and whose next module throws stops
right there: no later module is visited, the exception is unwrapped. -/
theorem coreStopGo_fail (pre : List CoreModule) (m : CoreModule) (post : List CoreModule)
    (e : String) (hm : m.stopRes = .error e) :
    ∀ tr : List String, (∀ x ∈ pre, x.stopRes = .ok ()) →
      coreStopGo (pre ++ m :: post) tr =
        (.error e, tr ++ pre.map (fun x => x.name ++ ".stop") ++ [m.name ++ ".stop"]) := by
  induction pre with
  | nil =>
      intro tr _
      rw [List.nil_append, coreStopGo, hm]
      simp
  | cons p rest ih =>
      intro tr hok
      rw [List.cons_append, coreStopGo]
      rw [hok p (List.mem_cons_self p rest)]
      rw [ih (tr ++ [p.name ++ ".stop"]) (fun x hx => hok x (List.mem_cons_of_mem p hx))]
      simp

/-! ## Claim theorems -/

/-- C1 (counterexample): the claim asserts that with three subscribers where
the second unsubscribes itself during its own invocation, a single `emit`
still invokes subscriber 3. On the code it does not: `emit` runs `forEach`
over the live `ls` array, the self-splice at index 1 shifts subscriber 3 to
index 1, and the next visit (index 2) finds the array too short. The trace
of `emit` on subscribers 1, 2 (self-unsubscribing), 3 records only tags 1
and 2 — no entry of subscriber 3 — and the final subscriber list is
`[1, 3]`. -/
theorem C1_snapshot_claim_counterexample :
    emit 0 (⟨[.plain 1, .plainUnsubSelf 2, .plain 3], []⟩ : EventState Nat)
      = ⟨[.plain 1, .plain 3], [(1, 0), (2, 0)]⟩
    ∧ ((emit 0 (⟨[.plain 1, .plainUnsubSelf 2, .plain 3], []⟩ : EventState Nat)).trace.all
        (fun p => p.1 != 3)) = true := by
  constructor
  · decide
  · decide

/-- C1 (amended): `emit(p)` iterates the live subscriber array (not a
snapshot). When no handler mutates the subscriber list during the pass,
exactly the handlers subscribed at the start of the emission are invoked,
in subscription order. But when the second of three subscribers
unsubscribes itself during its own invocation, the third subscriber is
skipped by that emission pass (it stays subscribed for later emissions). -/
theorem C1_emit_live_array_semantics {α : Type} (d : α) (L : List Handler)
    (tr : List (Nat × α)) (a b c : Nat)
    (hp : ∀ h ∈ L, h.isPlain = true) :
    emit d ⟨L, tr⟩ = ⟨L, tr ++ L.map (fun h => (h.tag, d))⟩
    ∧ emit d ⟨[.plain a, .plainUnsubSelf b, .plain c], tr⟩
        = ⟨[.plain a, .plain c], tr ++ [(a, d), (b, d)]⟩ := by
  constructor
  · exact emit_plain d L tr hp
  · simp +decide [emit, emitLoop, runHandler, unsubscribeOn, removeFirst, Handler.tag]

/-- C1 witness: a two-subscriber bus with no mutating handler invokes both
in order; the concrete three-subscriber self-unsubscribe run skips the
third. -/
theorem C1_emit_live_array_semantics_witness :
    emit 7 (⟨[.plain 4, .plain 5], []⟩ : EventState Nat)
      = ⟨[.plain 4, .plain 5], [(4, 7), (5, 7)]⟩
    ∧ emit 7 (⟨[.plain 1, .plainUnsubSelf 2, .plain 3], []⟩ : EventState Nat)
      = ⟨[.plain 1, .plain 3], [(1, 7), (2, 7)]⟩ := by
  have h := C1_emit_live_array_semantics 7 [Handler.plain 4, Handler.plain 5] [] 1 2 3
    (by decide)
  exact ⟨h.1, h.2⟩

/-- C2: `set(v)` on a store with a (non-empty) schema is atomic with
respect to validation. If every rule accepts `v` (equivalently: the
validator returns `none`, third conjunct), the cell is replaced by `v`, the
returned value is `v`, and — with subscribers that do not mutate the
subscriber list — every current subscriber receives exactly one emission of
`v`, in subscription order. If some rule rejects `v`, `set` throws
`Error("Invalid: <field>")` where `<field>` is the first-violating field in
rule-declaration order (second conjunct exhibits the split), and the store
state — value and subscriber traces alike — is exactly unchanged. -/
theorem C2_store_set_atomic (schema : Rules) (st : StoreState) (v : JSObj)
    (hne : schema ≠ [])
    (hplain : ∀ h ∈ st.changed.listeners, h.isPlain = true) :
    (validateGo v schema = none →
      Mol_Store_set schema v st =
        (.ok v, ⟨st.initial, v,
          ⟨st.changed.listeners,
            st.changed.trace ++ st.changed.listeners.map (fun h => (h.tag, v))⟩⟩))
    ∧ (∀ k, validateGo v schema = some k →
        Mol_Store_set schema v st = (.error ("Invalid: " ++ k), st)
        ∧ ∃ pre r post, schema = pre ++ (k, r) :: post
            ∧ (∀ p ∈ pre, p.2 (getField v p.1) = true)
            ∧ r (getField v k) = false)
    ∧ (validateGo v schema = none ↔ ∀ p ∈ schema, p.2 (getField v p.1) = true) := by
  have hlen : schema.length ≠ 0 := fun h => hne (List.length_eq_zero.mp h)
  refine ⟨?_, ?_, validateGo_eq_none_iff v schema⟩
  · intro hv
    have hemit : emit v st.changed =
        ⟨st.changed.listeners,
          st.changed.trace ++ st.changed.listeners.map (fun h => (h.tag, v))⟩ := by
      obtain ⟨i, val, ⟨ls, tr⟩⟩ := st
      exact emit_plain v ls tr hplain
    rw [Mol_Store_set, if_pos hlen, hv]
    simp only [hemit]
  · intro k hv
    rw [Mol_Store_set, if_pos hlen, hv]
    exact ⟨rfl, validateGo_eq_some v schema k hv⟩

/-- C2 witness: a store with schema `{name: required, age: type('number')}`
and one subscriber. A payload satisfying both rules is written, returned
and emitted once; a payload whose `age` is a string throws
`Invalid: age` and leaves the store untouched. -/
theorem C2_store_set_atomic_witness :
    Mol_Store_set [("name", Atom_Guard_required), ("age", Atom_Guard_type "number")]
        [("name", .str "hko"), ("age", .num 3)]
        ⟨[], [], ⟨[.plain 1], []⟩⟩
      = (.ok [("name", .str "hko"), ("age", .num 3)],
          ⟨[], [("name", .str "hko"), ("age", .num 3)],
            ⟨[.plain 1], [(1, [("name", .str "hko"), ("age", .num 3)])]⟩⟩)
    ∧ Mol_Store_set [("name", Atom_Guard_required), ("age", Atom_Guard_type "number")]
        [("name", .str "hko"), ("age", .str "three")]
        ⟨[], [], ⟨[.plain 1], []⟩⟩
      = (.error "Invalid: age", ⟨[], [], ⟨[.plain 1], []⟩⟩) := by
  constructor
  · exact (C2_store_set_atomic
      [("name", Atom_Guard_required), ("age", Atom_Guard_type "number")]
      ⟨[], [], ⟨[.plain 1], []⟩⟩ [("name", .str "hko"), ("age", .num 3)]
      (List.cons_ne_nil _ _) (by decide)).1 (by decide)
  · exact ((C2_store_set_atomic
      [("name", Atom_Guard_required), ("age", Atom_Guard_type "number")]
      ⟨[], [], ⟨[.plain 1], []⟩⟩ [("name", .str "hko"), ("age", .str "three")]
      (List.cons_ne_nil _ _) (by decide)).2.1 "age" (by decide)).1

/-- C3 (counterexample): the claim asserts a best-effort shutdown sweep —
`B.stop` throwing must not prevent `A.stop`, and `stop()` must resolve with
an aggregate `ShutdownError` listing `B`. The code's `stop` loop has no
`try`/`catch`: over `[A, B, C]` with `B.stop` throwing `"boom"`, the sweep
records only `C.stop` and `B.stop` — `A.stop` is never invoked — and the
call rejects with the raw `"boom"` (no aggregate error exists). -/
theorem C3_best_effort_counterexample :
    Core_stop [⟨"A", .ok (), .ok ()⟩, ⟨"B", .ok (), .error "boom"⟩, ⟨"C", .ok (), .ok ()⟩]
      = (.error "boom", ["C.stop", "B.stop"])
    ∧ "A.stop" ∉ (Core_stop [⟨"A", .ok (), .ok ()⟩, ⟨"B", .ok (), .error "boom"⟩,
        ⟨"C", .ok (), .ok ()⟩]).2 := by
  constructor
  · decide
  · decide

/-- C3 (amended): `Core.stop()` invokes module `stop` methods in reverse
registration order, but the sweep is fail-fast, not best-effort: when every
module stops cleanly all are visited in reverse order (first conjunct); when
a module's `stop` throws after the modules registered later than it stopped
cleanly, the loop aborts there — modules registered earlier are never given
a chance to stop — and `stop()` rejects with that module's own exception,
unwrapped and unaggregated (second conjunct). -/
theorem C3_stop_reverse_fail_fast (pre post : List CoreModule) (m : CoreModule)
    (e : String)
    (hpost : ∀ x ∈ post, x.stopRes = .ok ()) (hm : m.stopRes = .error e) :
    (∀ mods : List CoreModule, (∀ x ∈ mods, x.stopRes = .ok ()) →
      Core_stop mods = (.ok (), mods.reverse.map (fun x => x.name ++ ".stop")))
    ∧ Core_stop (pre ++ m :: post) =
        (.error e, post.reverse.map (fun x => x.name ++ ".stop") ++ [m.name ++ ".stop"]) := by
  constructor
  · intro mods hok
    rw [Core_stop, coreStopGo_ok mods.reverse [] (fun x hx => hok x (List.mem_reverse.mp hx))]
    simp
  · rw [Core_stop, List.reverse_append, List.reverse_cons, List.append_assoc,
      List.singleton_append]
    rw [coreStopGo_fail post.reverse m pre.reverse e hm []
      (fun x hx => hpost x (List.mem_reverse.mp hx))]
    simp

/-- C3 witness: registry `[A, B, C]`. With all stops clean the sweep is
`C.stop, B.stop, A.stop`; with `B.stop` throwing, only `C.stop, B.stop` run
and the raw error propagates. -/
theorem C3_stop_reverse_fail_fast_witness :
    Core_stop [⟨"A", .ok (), .ok ()⟩, ⟨"B", .ok (), .ok ()⟩, ⟨"C", .ok (), .ok ()⟩]
      = (.ok (), ["C.stop", "B.stop", "A.stop"])
    ∧ Core_stop [⟨"A", .ok (), .ok ()⟩, ⟨"B", .ok (), .error "boom"⟩, ⟨"C", .ok (), .ok ()⟩]
      = (.error "boom", ["C.stop", "B.stop"]) := by
  have h := C3_stop_reverse_fail_fast [⟨"A", .ok (), .ok ()⟩] [⟨"C", .ok (), .ok ()⟩]
    ⟨"B", .ok (), .error "boom"⟩ "boom" (by decide) (by decide)
  exact ⟨h.1 _ (by decide), h.2⟩

/-- C4 (counterexample): the claim asserts `Core.init()` rejects with a
`StartupAbort` referencing `B`. The code wraps nothing: over `[A, B, C]`
with `B.init` throwing `"boom"`, `init()` rejects with the raw `"boom"`,
whose text does not even contain the character `B`. The ordering part does
hold: the trace is `A.init, B.init` and `C.init` never runs. -/
theorem C4_startup_abort_counterexample :
    Core_init [⟨"A", .ok (), .ok ()⟩, ⟨"B", .error "boom", .ok ()⟩, ⟨"C", .ok (), .ok ()⟩]
      = (.error "boom", ["A.init", "B.init"])
    ∧ 'B' ∉ "boom".data := by
  constructor
  · decide
  · decide

/-- C4 (amended): `Core.init()` awaits each registered module's `init` in
registration order (first conjunct: a fail-free sweep visits all, in
order); when a module's `init` throws after all earlier modules initialized
cleanly, the sweep stops there — later modules are never touched, nothing
is compensated (the trace carries only `.init` invocations) — and `init()`
rejects with the throwing module's own exception, unwrapped (no
`StartupAbort` referencing the module exists in the code). -/
theorem C4_init_fail_fast (pre post : List CoreModule) (m : CoreModule) (e : String)
    (hpre : ∀ x ∈ pre, x.initRes = .ok ()) (hm : m.initRes = .error e) :
    (∀ mods : List CoreModule, (∀ x ∈ mods, x.initRes = .ok ()) →
      Core_init mods = (.ok (), mods.map (fun x => x.name ++ ".init")))
    ∧ Core_init (pre ++ m :: post) =
        (.error e, pre.map (fun x => x.name ++ ".init") ++ [m.name ++ ".init"]) := by
  constructor
  · intro mods hok
    rw [Core_init, coreInitGo_ok mods [] hok]
    simp
  · rw [Core_init, coreInitGo_fail pre m post e hm [] hpre]
    simp

/-- C4 witness: registry `[A, B, C]`. With all inits clean the sweep is
`A.init, B.init, C.init`; with `B.init` throwing, only `A.init, B.init` run
and the raw error propagates. -/
theorem C4_init_fail_fast_witness :
    Core_init [⟨"A", .ok (), .ok ()⟩, ⟨"B", .ok (), .ok ()⟩, ⟨"C", .ok (), .ok ()⟩]
      = (.ok (), ["A.init", "B.init", "C.init"])
    ∧ Core_init [⟨"A", .ok (), .ok ()⟩, ⟨"B", .error "boom", .ok ()⟩, ⟨"C", .ok (), .ok ()⟩]
      = (.error "boom", ["A.init", "B.init"]) := by
  have h := C4_init_fail_fast [⟨"A", .ok (), .ok ()⟩] [⟨"C", .ok (), .ok ()⟩]
    ⟨"B", .error "boom", .ok ()⟩ "boom" (by decide) (by decide)
  exact ⟨h.1 _ (by decide), h.2⟩

/-- C5: for a three-stage pipeline, if every stage succeeds `run(input)`
returns `s3(s2(s1(input)))` and the emitted progress events are
`run/ok` per stage in order; if `s2` throws, `run` rejects with that same
cause, the event list ends at `{stage:1, status:'fail'}` — the only
completed/failed-work events are `{0, ok}` and `{1, fail}`, there is no
stage-2 event — and the result does not depend on `s3` at all (`s3` is
universally quantified in the failing conjunct, so it is never invoked). -/
theorem C5_pipeline_three_stage {α : Type} (s1 s2 s3 : α → Except String α)
    (input a b c : α) (e : String) :
    (s1 input = .ok a → s2 a = .ok b → s3 b = .ok c →
      Mol_Pipeline_run [s1, s2, s3] input =
        (.ok c, [⟨0, .running⟩, ⟨0, .ok⟩, ⟨1, .running⟩, ⟨1, .ok⟩, ⟨2, .running⟩, ⟨2, .ok⟩]))
    ∧ (s1 input = .ok a → s2 a = .error e →
      Mol_Pipeline_run [s1, s2, s3] input =
        (.error e, [⟨0, .running⟩, ⟨0, .ok⟩, ⟨1, .running⟩, ⟨1, .fail e⟩])) := by
  constructor
  · intro h1 h2 h3
    simp [Mol_Pipeline_run, Mol_Pipeline_runGo, h1, h2, h3]
  · intro h1 h2
    simp [Mol_Pipeline_run, Mol_Pipeline_runGo, h1, h2]

/-- C5 witness: the molecule-test pipeline `x+1, x*2, x-3` on input 5 gives
9 with all six progress events; replacing the second stage by a throwing
one rejects with its cause and the third stage does not run. -/
theorem C5_pipeline_three_stage_witness :
    Mol_Pipeline_run [fun x => .ok (x + 1), fun x => .ok (x * 2), fun x => .ok (x - 3)]
        (5 : Nat)
      = (.ok 9, [⟨0, .running⟩, ⟨0, .ok⟩, ⟨1, .running⟩, ⟨1, .ok⟩, ⟨2, .running⟩, ⟨2, .ok⟩])
    ∧ Mol_Pipeline_run
        [fun x => .ok (x + 1), fun _ => .error "stage two broke", fun x => .ok (x - 3)]
        (5 : Nat)
      = (.error "stage two broke", [⟨0, .running⟩, ⟨0, .ok⟩, ⟨1, .running⟩,
          ⟨1, .fail "stage two broke"⟩]) := by
  constructor
  · exact (C5_pipeline_three_stage (fun x => .ok (x + 1)) (fun x => .ok (x * 2))
      (fun x => .ok (x - 3)) 5 6 12 9 "unused").1 rfl rfl rfl
  · exact (C5_pipeline_three_stage (fun x => .ok (x + 1)) (fun _ => .error "stage two broke")
      (fun x => .ok (x - 3)) 5 6 12 9 "stage two broke").2 rfl rfl

/-- C6: on a fresh module (status cell `{status:'idle', err:null}`) whose
`init` and `start` hooks all return, `status()` reads `idle` before any
phase, `init()` succeeds leaving `{status:'init', err:null}`, and a
subsequent `start()` succeeds leaving `{status:'run', err:null}` — the
`err` field stays `null` throughout. With subscribers that do not mutate
the subscriber list, each phase call emits its phase name exactly once to
each subscriber, in subscription order (`init` then `start` appear once per
subscriber in the bus trace). -/
theorem C6_module_status_sequence (lc : Lifecycle) (ls : List Handler)
    (tr : List (Nat × String))
    (h1 : runHooks lc.init = .ok ()) (h2 : runHooks lc.start = .ok ())
    (hp : ∀ h ∈ ls, h.isPlain = true) :
    Mol_Module_status ⟨lc, ⟨"idle", none⟩, ⟨ls, tr⟩⟩ = ⟨"idle", none⟩
    ∧ Mol_Module_init ⟨lc, ⟨"idle", none⟩, ⟨ls, tr⟩⟩ =
        (.ok (), ⟨lc, ⟨"init", none⟩, ⟨ls, tr ++ ls.map (fun h => (h.tag, "init"))⟩⟩)
    ∧ Mol_Module_start ⟨lc, ⟨"init", none⟩, ⟨ls, tr ++ ls.map (fun h => (h.tag, "init"))⟩⟩ =
        (.ok (), ⟨lc, ⟨"run", none⟩,
          ⟨ls, (tr ++ ls.map (fun h => (h.tag, "init"))) ++
            ls.map (fun h => (h.tag, "start"))⟩⟩) := by
  refine ⟨rfl, ?_, ?_⟩
  · rw [Mol_Module_init, h1, emit_plain "init" ls tr hp]
  · rw [Mol_Module_start, h2,
      emit_plain "start" ls (tr ++ ls.map (fun h => (h.tag, "init"))) hp]

/-- C6 witness: a module with one clean `init` hook, one clean `start` hook
and one subscriber walks `idle → init → run` with one `init` and one
`start` emission. -/
theorem C6_module_status_sequence_witness :
    Mol_Module_init ⟨⟨[.ok ()], [.ok ()], [], []⟩, ⟨"idle", none⟩, ⟨[.plain 1], []⟩⟩ =
      (.ok (), ⟨⟨[.ok ()], [.ok ()], [], []⟩, ⟨"init", none⟩,
        ⟨[.plain 1], [(1, "init")]⟩⟩)
    ∧ Mol_Module_start ⟨⟨[.ok ()], [.ok ()], [], []⟩, ⟨"init", none⟩,
        ⟨[.plain 1], [(1, "init")]⟩⟩ =
      (.ok (), ⟨⟨[.ok ()], [.ok ()], [], []⟩, ⟨"run", none⟩,
        ⟨[.plain 1], [(1, "init"), (1, "start")]⟩⟩) := by
  have h := C6_module_status_sequence ⟨[.ok ()], [.ok ()], [], []⟩ [.plain 1] []
    rfl rfl (by decide)
  exact ⟨h.2.1, h.2.2⟩

/-- C7 (evaluation at the failing input): `once(f)` then `on(g)` on a fresh
bus, emitting twice. The first `emit` invokes `f` (tag 1) but the wrapper's
auto-removal is `ls.pop()`, which removes `g` (tag 2) — the wrong handler —
so `g` is dropped without ever firing and the once-wrapper stays
subscribed; the second `emit` invokes `f` again. This contradicts the
claim: the once-handler is invoked on later emits, and another subscribed
handler is removed by the auto-removal. -/
theorem C7_once_pops_last_evaluation :
    emit 0 (onSub (.plain 2) (once 1 (⟨[], []⟩ : EventState Nat)))
      = ⟨[.onceWrap 1], [(1, 0)]⟩
    ∧ emit 1 (emit 0 (onSub (.plain 2) (once 1 (⟨[], []⟩ : EventState Nat))))
      = ⟨[], [(1, 0), (1, 1)]⟩ := by
  constructor
  · decide
  · decide

/-- C8: when a registered hook of a phase throws, the phase method
propagates that exception to its caller and the module's state is exactly
unchanged: the status cell keeps its previous snapshot (no `error` status
is ever written) and no phase event is emitted. Holds for each of the three
phase methods. -/
theorem C8_hook_throw_leaves_module_unchanged (st : ModuleState) (e : String) :
    (runHooks st.lc.init = .error e → Mol_Module_init st = (.error e, st))
    ∧ (runHooks st.lc.start = .error e → Mol_Module_start st = (.error e, st))
    ∧ (runHooks st.lc.stop = .error e → Mol_Module_stop st = (.error e, st)) := by
  refine ⟨?_, ?_, ?_⟩
  · intro h; rw [Mol_Module_init, h]
  · intro h; rw [Mol_Module_start, h]
  · intro h; rw [Mol_Module_stop, h]

/-- C8 witness: a fresh module whose only `start` hook throws `boom`:
`start()` returns the exception and the module state (still `idle`, no
emissions) is untouched. -/
theorem C8_hook_throw_leaves_module_unchanged_witness :
    Mol_Module_start ⟨⟨[], [.error "boom"], [], []⟩, ⟨"idle", none⟩, ⟨[.plain 1], []⟩⟩ =
      (.error "boom", ⟨⟨[], [.error "boom"], [], []⟩, ⟨"idle", none⟩, ⟨[.plain 1], []⟩⟩) :=
  (C8_hook_throw_leaves_module_unchanged
    ⟨⟨[], [.error "boom"], [], []⟩, ⟨"idle", none⟩, ⟨[.plain 1], []⟩⟩ "boom").2.1 rfl

/-- C9: a pipeline constructed with zero stages resolves to its input
unchanged and emits no stage progress events. -/
theorem C9_empty_pipeline_identity {α : Type} (input : α) :
    Mol_Pipeline_run ([] : List (α → Except String α)) input = (.ok input, []) :=
  rfl

/-- C10: the phase methods check no ordering precondition: from any current
module state whose hooks for the invoked phase all return, each of
`init()`, `start()`, `stop()` succeeds and unconditionally overwrites the
status cell with that phase's status value (`init`, `run`, `stop`
respectively), emitting the phase name. In particular `stop()` on a fresh
idle module succeeds and sets status `stop` (see the witness). -/
theorem C10_phase_methods_unconditional (st : ModuleState) :
    (runHooks st.lc.init = .ok () → Mol_Module_init st =
      (.ok (), { st with state := ⟨"init", none⟩, evt := emit "init" st.evt }))
    ∧ (runHooks st.lc.start = .ok () → Mol_Module_start st =
      (.ok (), { st with state := ⟨"run", none⟩, evt := emit "start" st.evt }))
    ∧ (runHooks st.lc.stop = .ok () → Mol_Module_stop st =
      (.ok (), { st with state := ⟨"stop", none⟩, evt := emit "stop" st.evt })) := by
  refine ⟨?_, ?_, ?_⟩
  · intro h; rw [Mol_Module_init, h]
  · intro h; rw [Mol_Module_start, h]
  · intro h; rw [Mol_Module_stop, h]

/-- C10 witness: `stop()` called first on a fresh idle module (no hooks)
succeeds and writes status `stop`. -/
theorem C10_phase_methods_unconditional_witness :
    Mol_Module_stop (Mol_Module_new ⟨[], [], [], []⟩) =
      (.ok (), ⟨⟨[], [], [], []⟩, ⟨"stop", none⟩, ⟨[], []⟩⟩) :=
  (C10_phase_methods_unconditional (Mol_Module_new ⟨[], [], [], []⟩)).2.2 rfl

end HKO
